import Mathlib

/-!
Shallow embedding of the Ulanzi D200 protocol engine
(`legacy/ulanzi_py/ulanzi_d200.py`) and proofs about its spec.

Byte strings are modelled as `List Nat` (each element a byte value).
Stateful Python code is modelled by explicit state passing; the HID
transport is modelled by the list of writes / the buffer a read returns.
-/

set_option maxRecDepth 8000

namespace Ulanzi

/-- Device constants from `UlanziDevice` (`PACKET_SIZE`, `CHUNK_SIZE`, `HEADER`). -/
def PACKET_SIZE : Nat := 1024

def CHUNK_SIZE : Nat := 1016

/-- The 2-byte frame marker `b'\x7c\x7c'`. -/
def HEADER : List Nat := [0x7c, 0x7c]

/-- The members of the `CommandProtocol` IntEnum. -/
def commandCodes : List Nat :=
  [0x0001, 0x0006, 0x000a, 0x000b, 0x000d, 0x0101, 0x0102, 0x0303]

/-- Python slice assignment `buf[start:start+len(xs)] = xs` on a bytearray.
When the slice reaches past the end of `buf` the bytearray grows, exactly
as `take start ++ xs` does here. -/
def setSlice (buf : List Nat) (start : Nat) (xs : List Nat) : List Nat :=
  buf.take start ++ xs ++ buf.drop (start + xs.length)

/-- `struct.pack('>H', n)`: big-endian 16-bit encoding (2 bytes). -/
def packBE16 (n : Nat) : List Nat :=
  [(n / 256) % 256, n % 256]

/-- `struct.pack('<I', n)`: little-endian 32-bit encoding (4 bytes). -/
def packLE32 (n : Nat) : List Nat :=
  [n % 256, (n / 256) % 256, (n / 65536) % 256, (n / 16777216) % 256]

/-- `UlanziDevice._build_packet` (ulanzi_d200.py lines 309-325): a zeroed
1024-byte buffer with the marker at [0,2), the big-endian command at [2,4),
the little-endian declared length at [4,8) and the payload from offset 8,
written by slice assignment. -/
def build_packet (command : Nat) (data : List Nat) (length : Nat) : List Nat :=
  let packet := List.replicate PACKET_SIZE 0
  let packet := setSlice packet 0 HEADER
  let packet := setSlice packet 2 (packBE16 command)
  let packet := setSlice packet 4 (packLE32 length)
  let packet := setSlice packet 8 data
  packet

/-- `bytes.ljust(n, b'\x00')`: pad on the right with zero bytes up to width `n`. -/
def ljust (xs : List Nat) (n : Nat) : List Nat :=
  xs ++ List.replicate (n - xs.length) 0

/-- The continuation chunks of `UlanziDevice._send_file` (lines 292-295):
for each 1024-byte window of the remaining stream, a raw chunk
zero-padded to 1024 bytes. -/
def contChunks (rest : List Nat) : List (List Nat) :=
  if rest = [] then []
  else ljust (rest.take 1024) 1024 :: contChunks (rest.drop 1024)
termination_by rest.length
decreasing_by
  simp only [List.length_drop]
  exact Nat.sub_lt (List.length_pos.mpr (by assumption)) (by norm_num)

/-- `UlanziDevice._send_file` (lines 281-302): the ordered list of chunks
written to the transport.  The first chunk is a frame built from the first
1016 bytes (zero-padded) whose declared length is the total stream size;
the rest are raw continuation chunks. -/
def sendFileChunks (data : List Nat) : List (List Nat) :=
  let first_chunk := data.take (1024 - 8)
  let packet := build_packet 0x0001 (ljust first_chunk (1024 - 8)) data.length
  packet :: contChunks (data.drop (1024 - 8))

section BuildPacketLemmas

lemma setSlice_append (pre xs rest : List Nat) (s : Nat) (hs : pre.length = s) :
    setSlice (pre ++ rest) s xs = pre ++ (xs ++ rest.drop xs.length) := by
  subst hs
  unfold setSlice
  rw [List.take_left, List.drop_append_eq_append_drop,
    List.drop_eq_nil_of_le (Nat.le_add_right _ _), List.nil_append,
    Nat.add_sub_cancel_left, List.append_assoc]

lemma packBE16_length (n : Nat) : (packBE16 n).length = 2 := rfl

lemma packLE32_length (n : Nat) : (packLE32 n).length = 4 := rfl

/-- Closed form of `build_packet`: marker, command, length, payload, zero
padding.  Holds for any payload length (for payloads longer than 1016
bytes the padding is empty and the buffer has grown, as in Python). -/
lemma build_packet_eq (command len : Nat) (data : List Nat) :
    build_packet command data len =
      HEADER ++ (packBE16 command ++ (packLE32 len ++
        (data ++ List.replicate (1016 - data.length) 0))) := by
  simp only [build_packet]
  have h1 : setSlice (List.replicate PACKET_SIZE 0) 0 HEADER =
      HEADER ++ List.replicate 1022 0 := by
    unfold setSlice PACKET_SIZE
    rw [List.take_zero, List.drop_replicate]
    norm_num [HEADER]
  rw [h1]
  have h2 : setSlice (HEADER ++ List.replicate 1022 0) 2 (packBE16 command) =
      HEADER ++ (packBE16 command ++ List.replicate 1020 0) := by
    rw [setSlice_append HEADER (packBE16 command) (List.replicate 1022 0) 2 rfl,
      packBE16_length, List.drop_replicate]
  rw [h2, ← List.append_assoc]
  have h3 : setSlice ((HEADER ++ packBE16 command) ++ List.replicate 1020 0) 4
        (packLE32 len) =
      (HEADER ++ packBE16 command) ++ (packLE32 len ++ List.replicate 1016 0) := by
    rw [setSlice_append (HEADER ++ packBE16 command) (packLE32 len)
      (List.replicate 1020 0) 4 (by rw [List.length_append, packBE16_length]; rfl),
      packLE32_length, List.drop_replicate]
  rw [h3, ← List.append_assoc]
  have h4 : setSlice ((HEADER ++ packBE16 command ++ packLE32 len) ++
        List.replicate 1016 0) 8 data =
      (HEADER ++ packBE16 command ++ packLE32 len) ++
        (data ++ List.replicate (1016 - data.length) 0) := by
    rw [setSlice_append (HEADER ++ packBE16 command ++ packLE32 len) data
      (List.replicate 1016 0) 8
      (by rw [List.length_append, List.length_append, packBE16_length,
        packLE32_length]; rfl),
      List.drop_replicate]
  rw [h4]
  rw [List.append_assoc, List.append_assoc]

lemma build_packet_length (command len : Nat) (data : List Nat)
    (h : data.length ≤ 1016) :
    (build_packet command data len).length = 1024 := by
  rw [build_packet_eq]
  simp [HEADER, packBE16_length, packLE32_length]
  omega

lemma getD_append_left {l r : List Nat} {i : Nat} (h : i < l.length) (d : Nat) :
    (l ++ r).getD i d = l.getD i d := by
  rw [List.getD_eq_getElem?_getD, List.getD_eq_getElem?_getD,
    List.getElem?_append_left h]

lemma getD_append_right {l r : List Nat} {i : Nat} (h : l.length ≤ i) (d : Nat) :
    (l ++ r).getD i d = r.getD (i - l.length) d := by
  rw [List.getD_eq_getElem?_getD, List.getD_eq_getElem?_getD,
    List.getElem?_append_right h]

lemma getD_replicate_zero (m j : Nat) : (List.replicate m 0).getD j 0 = 0 := by
  rw [List.getD_eq_getElem?_getD]
  rcases Nat.lt_or_ge j m with h | h
  · simp [List.getElem?_replicate, h]
  · rw [List.getElem?_eq_none (by simpa using h)]
    rfl

end BuildPacketLemmas

/-- C1: for every command code, payload of at most 1016 bytes and declared
length below 2^32, `_build_packet` returns exactly 1024 bytes: the fixed
marker at [0,2), the big-endian command at [2,4), the little-endian 32-bit
length at [4,8), the payload at [8, 8+len(payload)) and zeros everywhere
after the payload. -/
theorem c1_build_packet_layout (command : Nat) (hc : command ∈ commandCodes)
    (data : List Nat) (hd : data.length ≤ 1016)
    (len : Nat) (hl : len < 2 ^ 32) :
    (build_packet command data len).length = 1024 ∧
    (build_packet command data len).take 2 = [0x7c, 0x7c] ∧
    ((build_packet command data len).drop 2).take 2 = packBE16 command ∧
    ((build_packet command data len).drop 4).take 4 = packLE32 len ∧
    ((build_packet command data len).drop 8).take data.length = data ∧
    (∀ i, 8 + data.length ≤ i → i < 1024 →
      (build_packet command data len).getD i 0 = 0) := by
  refine ⟨build_packet_length _ _ _ hd, ?_, ?_, ?_, ?_, ?_⟩
  · rw [build_packet_eq]
    rfl
  · rw [build_packet_eq]
    rfl
  · rw [build_packet_eq]
    rfl
  · rw [build_packet_eq]
    have : HEADER ++ (packBE16 command ++ (packLE32 len ++
        (data ++ List.replicate (1016 - data.length) 0))) =
        (HEADER ++ packBE16 command ++ packLE32 len) ++
        (data ++ List.replicate (1016 - data.length) 0) := by
      simp [List.append_assoc]
    rw [this, List.drop_left' (by simp [HEADER, packBE16_length, packLE32_length]),
      List.take_append_eq_append_take, List.take_of_length_le (Nat.le_refl _),
      Nat.sub_self]
    simp
  · intro i hi hi'
    rw [build_packet_eq]
    have heq : HEADER ++ (packBE16 command ++ (packLE32 len ++
        (data ++ List.replicate (1016 - data.length) 0))) =
        ((HEADER ++ packBE16 command ++ packLE32 len) ++ data) ++
        List.replicate (1016 - data.length) 0 := by
      simp [List.append_assoc]
    rw [heq]
    have hlen : ((HEADER ++ packBE16 command ++ packLE32 len) ++ data).length =
        8 + data.length := by
      simp [HEADER, packBE16_length, packLE32_length]
      omega
    rw [getD_append_right (by omega) 0, getD_replicate_zero]

/-- Witness for C1 at command `0x0001`, payload `[1, 2, 3]`, declared
length `7`, checking the trailing zero at offset 100. -/
theorem c1_build_packet_layout_witness :
    (build_packet 1 [1, 2, 3] 7).length = 1024 ∧
    (build_packet 1 [1, 2, 3] 7).take 2 = [0x7c, 0x7c] ∧
    ((build_packet 1 [1, 2, 3] 7).drop 2).take 2 = packBE16 1 ∧
    ((build_packet 1 [1, 2, 3] 7).drop 4).take 4 = packLE32 7 ∧
    ((build_packet 1 [1, 2, 3] 7).drop 8).take 3 = [1, 2, 3] ∧
    (build_packet 1 [1, 2, 3] 7).getD 100 0 = 0 := by
  have h := c1_build_packet_layout 1 (by decide) [1, 2, 3] (by decide) 7 (by decide)
  exact ⟨h.1, h.2.1, h.2.2.1, h.2.2.2.1, h.2.2.2.2.1,
    h.2.2.2.2.2 100 (by norm_num) (by norm_num)⟩

section ChunkLemmas

lemma ljust_length {xs : List Nat} {n : Nat} (h : xs.length ≤ n) :
    (ljust xs n).length = n := by
  simp [ljust]
  omega

lemma ljust_of_length_eq {xs : List Nat} {n : Nat} (h : xs.length = n) :
    ljust xs n = xs := by
  simp [ljust, h]

lemma sendFileChunks_eq (S : List Nat) :
    sendFileChunks S =
      build_packet 0x0001 (ljust (S.take 1016) 1016) S.length ::
        contChunks (S.drop 1016) := by
  norm_num [sendFileChunks]

lemma first_packet_drop8 (S : List Nat) :
    (build_packet 0x0001 (ljust (S.take 1016) 1016) S.length).drop 8 =
      ljust (S.take 1016) 1016 := by
  rw [build_packet_eq]
  have hlen : (ljust (S.take 1016) 1016).length = 1016 :=
    ljust_length (by simp)
  rw [hlen]
  have : HEADER ++ (packBE16 0x0001 ++ (packLE32 S.length ++
      (ljust (S.take 1016) 1016 ++ List.replicate (1016 - 1016) 0))) =
      (HEADER ++ packBE16 0x0001 ++ packLE32 S.length) ++
      (ljust (S.take 1016) 1016 ++ List.replicate 0 0) := by
    rw [List.append_assoc, List.append_assoc]
  rw [this, List.drop_left' (by rfl)]
  simp

lemma contChunks_flatten (rest : List Nat) :
    ∃ p, (contChunks rest).flatten = rest ++ List.replicate p 0 := by
  have H : ∀ n (rest : List Nat), rest.length ≤ n →
      ∃ p, (contChunks rest).flatten = rest ++ List.replicate p 0 := by
    intro n
    induction n with
    | zero =>
      intro rest h
      have : rest = [] := List.length_eq_zero.mp (Nat.le_zero.mp h)
      subst this
      exact ⟨0, by rw [contChunks]; simp⟩
    | succ n ih =>
      intro rest h
      by_cases hr : rest = []
      · subst hr
        exact ⟨0, by rw [contChunks]; simp⟩
      · rw [contChunks, if_neg hr]
        by_cases hlen : rest.length ≤ 1024
        · have hdrop : rest.drop 1024 = [] := List.drop_eq_nil_of_le hlen
          rw [hdrop, contChunks]
          refine ⟨1024 - rest.length, ?_⟩
          simp [ljust, List.take_of_length_le hlen]
        · have hdrop : (rest.drop 1024).length ≤ n := by
            rw [List.length_drop]
            omega
          obtain ⟨p, hp⟩ := ih (rest.drop 1024) hdrop
          refine ⟨p, ?_⟩
          rw [List.flatten_cons, hp,
            ljust_of_length_eq (by rw [List.length_take]; omega),
            ← List.append_assoc, List.take_append_drop]
  exact H rest.length rest (Nat.le_refl _)

lemma contChunks_getD (j : Nat) :
    ∀ rest : List Nat, j < (contChunks rest).length →
      (contChunks rest).getD j [] =
        ljust ((rest.drop (1024 * j)).take 1024) 1024 := by
  induction j with
  | zero =>
    intro rest hj
    by_cases hr : rest = []
    · rw [contChunks, if_pos hr] at hj
      simp at hj
    · rw [contChunks, if_neg hr]
      simp
  | succ j ih =>
    intro rest hj
    by_cases hr : rest = []
    · rw [contChunks, if_pos hr] at hj
      simp at hj
    · rw [contChunks, if_neg hr] at hj ⊢
      simp only [List.getD_cons_succ]
      rw [ih (rest.drop 1024) (by simpa using hj), List.drop_drop]
      have : 1024 + 1024 * j = 1024 * (j + 1) := by ring
      rw [this]

end ChunkLemmas

/-- C2: chunking a byte stream with `_send_file`, concatenating the first
chunk's payload region (bytes [8,1024)) with all continuation chunks in
emission order and truncating to the stream's length reproduces the
stream exactly, for any total length. -/
theorem c2_chunk_reassembly (S : List Nat) :
    ((sendFileChunks S).headI.drop 8 ++
      ((sendFileChunks S).tail).flatten).take S.length = S := by
  rw [sendFileChunks_eq]
  simp only [List.headI, List.tail_cons]
  rw [first_packet_drop8]
  by_cases hlen : S.length ≤ 1016
  · have htake : S.take 1016 = S := List.take_of_length_le hlen
    have hdrop : S.drop 1016 = [] := List.drop_eq_nil_of_le hlen
    rw [htake, hdrop, contChunks, if_pos rfl]
    simp only [List.flatten_nil, List.append_nil, ljust, List.append_assoc]
    rw [List.take_left]
  · obtain ⟨p, hp⟩ := contChunks_flatten (S.drop 1016)
    rw [ljust_of_length_eq (by rw [List.length_take]; omega), hp,
      ← List.append_assoc, List.take_append_drop, List.take_left]

/-- C3: the first chunk `_send_file` emits is a 1024-byte frame (marker in
place) whose payload region is the stream's first 1016 bytes zero-padded
and whose declared-length field is the little-endian encoding of the total
stream size; every continuation chunk is exactly 1024 bytes of raw stream
data starting at offset 1016 + 1024*j, zero-padded when shorter. -/
theorem c3_first_and_continuation_chunks (S : List Nat) :
    (sendFileChunks S).headI.length = 1024 ∧
    (sendFileChunks S).headI.take 2 = HEADER ∧
    ((sendFileChunks S).headI.drop 4).take 4 = packLE32 S.length ∧
    (sendFileChunks S).headI.drop 8 = ljust (S.take 1016) 1016 ∧
    (∀ j, j < (sendFileChunks S).tail.length →
      ((sendFileChunks S).tail.getD j []).length = 1024 ∧
      (sendFileChunks S).tail.getD j [] =
        ljust ((S.drop (1016 + 1024 * j)).take 1024) 1024) := by
  rw [sendFileChunks_eq]
  simp only [List.headI, List.tail_cons]
  refine ⟨build_packet_length _ _ _
      (le_of_eq (ljust_length (by rw [List.length_take]; omega))), ?_, ?_,
    first_packet_drop8 S, ?_⟩
  · rw [build_packet_eq]
    rfl
  · rw [build_packet_eq]
    rfl
  · intro j hj
    have hchunk := contChunks_getD j (S.drop 1016) hj
    rw [List.drop_drop] at hchunk
    refine ⟨?_, hchunk⟩
    rw [hchunk]
    exact ljust_length (by rw [List.length_take]; omega)

/-- Witness for C3 on a 1040-byte stream (one continuation chunk), at j = 0. -/
theorem c3_first_and_continuation_chunks_witness :
    ((sendFileChunks (List.replicate 1040 5)).tail.getD 0 []).length = 1024 ∧
    (sendFileChunks (List.replicate 1040 5)).tail.getD 0 [] =
      ljust (((List.replicate 1040 5).drop (1016 + 1024 * 0)).take 1024) 1024 :=
  (c3_first_and_continuation_chunks (List.replicate 1040 5)).2.2.2.2 0 (by
    rw [sendFileChunks_eq, List.tail_cons, contChunks, if_neg (by decide)]
    simp)

/-- Python `range(start, stop, step)` for a positive step, as the list of
its elements. -/
def pyRange (start stop step : Nat) : List Nat :=
  (List.range ((stop - start + step - 1) / step)).map (fun k => start + step * k)

/-- Membership test against the `invalid_bytes` set `b'\x00'[0], b'\x7c'[0]`
that `set_buttons` passes to `_patch_invalid_bytes`. -/
def isBad (v : Nat) : Bool := v == 0x00 || v == 0x7c

/-- One scan of `_patch_invalid_bytes` (line 332): the offsets in
`range(1016, len(patched), 1024)` holding an invalid byte. -/
def scanOffsets (l : List Nat) : List Nat :=
  (pyRange 1016 l.length 1024).filter (fun i => isBad (l.getD i 0))

/-- The patching pass (lines 335-336): overwrite each listed offset with `0x01`. -/
def patchAt (l : List Nat) (idxs : List Nat) : List Nat :=
  idxs.foldl (fun acc i => acc.set i 0x01) l

section PatchLemmas

lemma patchAt_length (idxs : List Nat) :
    ∀ l : List Nat, (patchAt l idxs).length = l.length := by
  induction idxs with
  | nil => intro l; rfl
  | cons j rest ih =>
    intro l
    show (patchAt (l.set j 0x01) rest).length = l.length
    rw [ih, List.length_set]

lemma getD_set_other (l : List Nat) (i j v : Nat) (h : i ≠ j) :
    (l.set i v).getD j 0 = l.getD j 0 := by
  rw [List.getD_eq_getElem?_getD, List.getD_eq_getElem?_getD,
    List.getElem?_set_ne h]

lemma getD_set_self (l : List Nat) (i v : Nat) (h : i < l.length) :
    (l.set i v).getD i 0 = v := by
  rw [List.getD_eq_getElem?_getD, List.getElem?_set_self' ]
  simp [List.getElem?_eq_getElem h]

lemma patchAt_getD_notMem (idxs : List Nat) :
    ∀ l : List Nat, ∀ i, i ∉ idxs → (patchAt l idxs).getD i 0 = l.getD i 0 := by
  induction idxs with
  | nil => intro l i _; rfl
  | cons j rest ih =>
    intro l i hi
    show (patchAt (l.set j 0x01) rest).getD i 0 = l.getD i 0
    rw [ih _ i (fun h => hi (List.mem_cons_of_mem _ h))]
    exact getD_set_other l j i 0x01
      (fun hji => hi (by rw [← hji]; exact List.mem_cons_self _ _))

lemma patchAt_getD_mem (idxs : List Nat) :
    ∀ l : List Nat, ∀ i, i ∈ idxs → i < l.length →
      (patchAt l idxs).getD i 0 = 0x01 := by
  induction idxs with
  | nil => intro l i hi; exact absurd hi (List.not_mem_nil i)
  | cons j rest ih =>
    intro l i hi hlen
    show (patchAt (l.set j 0x01) rest).getD i 0 = 0x01
    by_cases hmem : i ∈ rest
    · exact ih _ i hmem (by rw [List.length_set]; exact hlen)
    · have hij : i = j := by
        rcases List.mem_cons.mp hi with h | h
        · exact h
        · exact absurd h hmem
      subst hij
      rw [patchAt_getD_notMem rest _ i hmem, getD_set_self _ _ _ hlen]

lemma mem_pyRange_flash {n i : Nat} :
    i ∈ pyRange 1016 n 1024 ↔ ∃ k, i = 1016 + 1024 * k ∧ i < n := by
  unfold pyRange
  rw [List.mem_map]
  constructor
  · rintro ⟨k, hk, rfl⟩
    rw [List.mem_range] at hk
    refine ⟨k, rfl, ?_⟩
    have := (Nat.le_div_iff_mul_le (by norm_num : 0 < 1024)).mp hk
    omega
  · rintro ⟨k, rfl, hlt⟩
    refine ⟨k, ?_, rfl⟩
    rw [List.mem_range]
    have : (k + 1) * 1024 ≤ n - 1016 + 1024 - 1 := by omega
    exact (Nat.le_div_iff_mul_le (by norm_num : 0 < 1024)).mpr this

lemma isBad_iff {v : Nat} : isBad v = true ↔ v = 0x00 ∨ v = 0x7c := by
  simp [isBad]

lemma mem_scanOffsets {l : List Nat} {i : Nat} :
    i ∈ scanOffsets l ↔
      (∃ k, i = 1016 + 1024 * k) ∧ i < l.length ∧ isBad (l.getD i 0) = true := by
  unfold scanOffsets
  rw [List.mem_filter, mem_pyRange_flash]
  constructor
  · rintro ⟨⟨k, rfl, hlt⟩, hbad⟩
    exact ⟨⟨k, rfl⟩, hlt, hbad⟩
  · rintro ⟨⟨k, rfl⟩, hlt, hbad⟩
    exact ⟨⟨k, rfl, hlt⟩, hbad⟩

lemma scanOffsets_patchAt (l : List Nat) :
    scanOffsets (patchAt l (scanOffsets l)) = [] := by
  rw [List.eq_nil_iff_forall_not_mem]
  intro i hi
  rw [mem_scanOffsets, patchAt_length] at hi
  obtain ⟨hk, hlt, hbad⟩ := hi
  by_cases hmem : i ∈ scanOffsets l
  · rw [patchAt_getD_mem _ _ _ hmem hlt] at hbad
    simp [isBad] at hbad
  · rw [patchAt_getD_notMem _ _ _ hmem] at hbad
    exact hmem (mem_scanOffsets.mpr ⟨hk, hlt, hbad⟩)

end PatchLemmas

/-- The `while True` loop of `UlanziDevice._patch_invalid_bytes`
(lines 331-337): rescan and patch until a scan comes back clean,
accumulating the rewritten offsets in order.  The loop is written with a
step counter; `patchLoopAux_fuel` below shows the counter used by
`patch_invalid_bytes` always suffices, because after one patching pass
the rescan is provably empty (`scanOffsets_patchAt`), so the fueled
function satisfies exactly the while-loop's recurrence. -/
def patchLoopAux : Nat → List Nat → List Nat → List Nat × List Nat
  | 0, l, fixed => (l, fixed)
  | fuel + 1, l, fixed =>
      if scanOffsets l = [] then (l, fixed)
      else patchLoopAux fuel (patchAt l (scanOffsets l)) (fixed ++ scanOffsets l)

/-- `UlanziDevice._patch_invalid_bytes` (lines 327-338): returns the patched
stream and the list of rewritten offsets. -/
def patch_invalid_bytes (zip_data : List Nat) : List Nat × List Nat :=
  patchLoopAux ((scanOffsets zip_data).length + 1) zip_data []

/-- The fueled loop satisfies the unbounded while-loop's recurrence when
started with the fuel `patch_invalid_bytes` supplies, so the counter is
no restriction: the loop provably finishes within it. -/
lemma patchLoopAux_fuel (l fixed : List Nat) :
    patchLoopAux ((scanOffsets l).length + 1) l fixed =
      if scanOffsets l = [] then (l, fixed)
      else patchLoopAux ((scanOffsets (patchAt l (scanOffsets l))).length + 1)
        (patchAt l (scanOffsets l)) (fixed ++ scanOffsets l) := by
  by_cases h : scanOffsets l = []
  · simp only [patchLoopAux, if_pos h]
  · simp only [patchLoopAux, if_neg h]
    obtain ⟨m, hm⟩ : ∃ m, (scanOffsets l).length = m + 1 :=
      ⟨(scanOffsets l).length - 1, by
        have := List.length_pos.mpr h
        omega⟩
    rw [hm, scanOffsets_patchAt]
    simp [patchLoopAux, if_pos (scanOffsets_patchAt l)]

/-- Closed form of the patch loop: it runs at most one effective pass,
because a patched offset holds `0x01` which is not an invalid value. -/
lemma patch_invalid_bytes_eq (l : List Nat) :
    patch_invalid_bytes l =
      if scanOffsets l = [] then (l, [])
      else (patchAt l (scanOffsets l), scanOffsets l) := by
  unfold patch_invalid_bytes
  by_cases h : scanOffsets l = []
  · simp only [patchLoopAux, if_pos h]
  · simp only [patchLoopAux, if_neg h]
    obtain ⟨m, hm⟩ : ∃ m, (scanOffsets l).length = m + 1 :=
      ⟨(scanOffsets l).length - 1, by
        have := List.length_pos.mpr h
        omega⟩
    rw [hm]
    simp only [patchLoopAux, if_pos (scanOffsets_patchAt l), List.nil_append]

/-- C4: `_patch_invalid_bytes` preserves the stream length; every byte it
changes sits at an offset congruent to 1016 mod 1024, had value `0x00` or
`0x7C` before, and is overwritten with `0x01`; every in-range offset of
that shape holding an invalid value is rewritten; and running the patcher
on its own output changes nothing and reports an empty offset list. -/
theorem c4_patch_invalid_bytes (l : List Nat) :
    (patch_invalid_bytes l).1.length = l.length ∧
    (∀ i, (patch_invalid_bytes l).1.getD i 0 ≠ l.getD i 0 →
      i % 1024 = 1016 ∧ (l.getD i 0 = 0x00 ∨ l.getD i 0 = 0x7c) ∧
        (patch_invalid_bytes l).1.getD i 0 = 0x01) ∧
    (∀ i, i < l.length → i % 1024 = 1016 →
      (l.getD i 0 = 0x00 ∨ l.getD i 0 = 0x7c) →
      (patch_invalid_bytes l).1.getD i 0 = 0x01) ∧
    patch_invalid_bytes ((patch_invalid_bytes l).1) =
      ((patch_invalid_bytes l).1, []) := by
  rw [patch_invalid_bytes_eq]
  by_cases h : scanOffsets l = []
  · rw [if_pos h]
    refine ⟨rfl, fun i hi => absurd rfl hi, ?_, ?_⟩
    · intro i hlt hmod hbad
      exfalso
      have : i ∈ scanOffsets l := mem_scanOffsets.mpr
        ⟨⟨(i - 1016) / 1024, by omega⟩, hlt, isBad_iff.mpr hbad⟩
      rw [h] at this
      exact List.not_mem_nil i this
    · rw [patch_invalid_bytes_eq, if_pos h]
  · rw [if_neg h]
    refine ⟨patchAt_length _ _, ?_, ?_, ?_⟩
    · intro i hne
      have hmem : i ∈ scanOffsets l := by
        by_contra hmem
        exact hne (patchAt_getD_notMem _ _ _ hmem)
      obtain ⟨⟨k, hk⟩, hlt, hbad⟩ := mem_scanOffsets.mp hmem
      exact ⟨by omega, isBad_iff.mp hbad, patchAt_getD_mem _ _ _ hmem hlt⟩
    · intro i hlt hmod hbad
      have hmem : i ∈ scanOffsets l := mem_scanOffsets.mpr
        ⟨⟨(i - 1016) / 1024, by omega⟩, hlt, isBad_iff.mpr hbad⟩
      exact patchAt_getD_mem _ _ _ hmem hlt
    · rw [patch_invalid_bytes_eq, if_pos (scanOffsets_patchAt l)]

/-- Witness for C4 on a 1017-byte stream whose offset 1016 holds `0x00`:
that byte is rewritten to `0x01`. -/
theorem c4_patch_invalid_bytes_witness :
    (patch_invalid_bytes (List.replicate 1017 0)).1.getD 1016 0 = 0x01 :=
  (c4_patch_invalid_bytes (List.replicate 1017 0)).2.2.1 1016
    (by rw [List.length_replicate]; norm_num) (by norm_num)
    (Or.inl (getD_replicate_zero 1017 1016))

/-- Decoded button press event (`ButtonPress` dataclass, lines 57-62). -/
structure ButtonPress where
  index : Nat
  pressed : Bool
  state : Nat
deriving DecidableEq, Repr

/-- The frame-parsing steps of `read_button_press` (lines 127-140): a read
buffer shorter than 8 bytes or with a bad marker is not a frame; otherwise
the command is the big-endian 16-bit field at [2,4) and the payload region
is everything from offset 8.  The buffer is a byte list as returned by the
HID transport. -/
def parse_frame (data : List Nat) : Option (Nat × List Nat) :=
  if data.length < 8 then none
  else if data.take 2 ≠ HEADER then none
  else some (256 * data.getD 2 0 + data.getD 3 0, data.drop 8)

/-- `UlanziDevice.read_button_press` decoding (lines 120-152) on a byte
buffer: short buffer or marker mismatch gives no event; a command other
than `IN_BUTTON` (0x0101) or `IN_BUTTON_2` (0x0102) gives no event; a
buffer shorter than 12 bytes makes `button_data[...]` raise an IndexError,
which the `except` handler turns into no event; otherwise state is payload
byte 0, index payload byte 1, pressed tests payload byte 3 against 0x01
(payload byte 2 unused). -/
def decodeRead (data : List Nat) : Option ButtonPress :=
  if data.length < 8 then none
  else if data.take 2 ≠ HEADER then none
  else if ¬ (256 * data.getD 2 0 + data.getD 3 0 = 0x0101 ∨
      256 * data.getD 2 0 + data.getD 3 0 = 0x0102) then none
  else if data.length < 12 then none
  else some { index := data.getD 9 0, pressed := data.getD 11 0 == 0x01,
              state := data.getD 8 0 }

/-- `read_button_press` including observer dispatch (lines 145-148):
`armed` says whether a callback was registered with
`set_button_callback`; the second component is the list of observer
invocations the call performs, in order. -/
def read_button_press (armed : Bool) (data : List Nat) :
    Option ButtonPress × List ButtonPress :=
  match decodeRead data with
  | none => (none, [])
  | some bp => (some bp, if armed then [bp] else [])

/-- C5: encoding any payload of at most 1016 bytes into a frame and parsing
the frame back yields the same command code and a payload region whose
first `len(P)` bytes are exactly P. -/
theorem c5_encode_decode_roundtrip (command : Nat) (hc : command < 65536)
    (P : List Nat) (hP : P.length ≤ 1016) (len : Nat) :
    parse_frame (build_packet command P len) =
      some (command, P ++ List.replicate (1016 - P.length) 0) ∧
    (P ++ List.replicate (1016 - P.length) 0).take P.length = P := by
  refine ⟨?_, ?_⟩
  · unfold parse_frame
    rw [if_neg (by rw [build_packet_length _ _ _ hP]; omega)]
    rw [build_packet_eq]
    rw [if_neg (by intro hne; exact hne rfl)]
    have hcmd : (HEADER ++ (packBE16 command ++ (packLE32 len ++
        (P ++ List.replicate (1016 - P.length) 0)))).getD 2 0 =
        (command / 256) % 256 := rfl
    have hcmd' : (HEADER ++ (packBE16 command ++ (packLE32 len ++
        (P ++ List.replicate (1016 - P.length) 0)))).getD 3 0 =
        command % 256 := rfl
    rw [hcmd, hcmd']
    have hdrop : (HEADER ++ (packBE16 command ++ (packLE32 len ++
        (P ++ List.replicate (1016 - P.length) 0)))).drop 8 =
        P ++ List.replicate (1016 - P.length) 0 := by
      have : HEADER ++ (packBE16 command ++ (packLE32 len ++
          (P ++ List.replicate (1016 - P.length) 0))) =
          (HEADER ++ packBE16 command ++ packLE32 len) ++
          (P ++ List.replicate (1016 - P.length) 0) := by
        rw [List.append_assoc, List.append_assoc]
      rw [this, List.drop_left' (by rfl)]
    rw [hdrop]
    have : 256 * ((command / 256) % 256) + command % 256 = command := by
      have h1 : command / 256 < 256 := by omega
      rw [Nat.mod_eq_of_lt h1]
      omega
    rw [this]
  · rw [List.take_left' rfl]

/-- Witness for C5 at command 3, payload `[9, 8, 7]`, declared length 42. -/
theorem c5_encode_decode_roundtrip_witness :
    parse_frame (build_packet 3 [9, 8, 7] 42) =
      some (3, [9, 8, 7] ++ List.replicate (1016 - 3) 0) ∧
    (([9, 8, 7] : List Nat) ++ List.replicate (1016 - 3) 0).take 3 = [9, 8, 7] := by
  have h := c5_encode_decode_roundtrip 3 (by norm_num) [9, 8, 7] (by norm_num) 42
  exact h

/-- C9: a read buffer of at least 12 bytes that starts with the marker and
carries one of the two inbound button-press commands decodes to a
ButtonPress with state = payload byte 0, index = payload byte 1 and
pressed exactly when payload byte 3 is 0x01; the event is returned to the
caller for any observer state, and a registered observer is invoked
exactly once with that event. -/
theorem c9_button_press_decode (data : List Nat) (armed : Bool)
    (hlen : 12 ≤ data.length) (hmark : data.take 2 = HEADER)
    (hcmd : 256 * data.getD 2 0 + data.getD 3 0 = 0x0101 ∨
      256 * data.getD 2 0 + data.getD 3 0 = 0x0102) :
    read_button_press armed data =
      (some { index := data.getD 9 0, pressed := data.getD 11 0 == 0x01,
              state := data.getD 8 0 },
        if armed then
          [{ index := data.getD 9 0, pressed := data.getD 11 0 == 0x01,
             state := data.getD 8 0 }]
        else []) := by
  unfold read_button_press decodeRead
  rw [if_neg (by omega), if_neg (by rw [hmark]; exact fun h => h rfl),
    if_neg (by intro h; exact h hcmd), if_neg (by omega)]

/-- Witness for C9: marker, command `0x0101`, payload bytes `[5, 7, 0, 1]`
decode to state 5, index 7, pressed true, and an armed observer fires
exactly once with that event. -/
theorem c9_button_press_decode_witness :
    read_button_press true [0x7c, 0x7c, 0x01, 0x01, 0, 0, 0, 0, 5, 7, 0, 1] =
      (some { index := 7, pressed := true, state := 5 },
        [{ index := 7, pressed := true, state := 5 }]) := by
  have h := c9_button_press_decode [0x7c, 0x7c, 0x01, 0x01, 0, 0, 0, 0, 5, 7, 0, 1]
    true (by norm_num) (by rfl) (Or.inl (by norm_num))
  simpa using h

/-- C10: the event decoder never surfaces an error to its caller — a byte
buffer shorter than 8 bytes, a marker mismatch, a command other than the
two inbound button-press codes, or a buffer too short for the button
fields (the one decoding step that can raise, caught by the handler) all
produce "no event" and no observer invocation. -/
theorem c10_decoder_never_raises (data : List Nat) (armed : Bool)
    (h : data.length < 8 ∨ data.take 2 ≠ HEADER ∨
      ¬ (256 * data.getD 2 0 + data.getD 3 0 = 0x0101 ∨
        256 * data.getD 2 0 + data.getD 3 0 = 0x0102) ∨
      data.length < 12) :
    read_button_press armed data = (none, []) := by
  unfold read_button_press decodeRead
  rcases h with h | h | h | h
  · rw [if_pos h]
  · by_cases h8 : data.length < 8
    · rw [if_pos h8]
    · rw [if_neg h8, if_pos h]
  · by_cases h8 : data.length < 8
    · rw [if_pos h8]
    · rw [if_neg h8]
      by_cases hm : data.take 2 ≠ HEADER
      · rw [if_pos hm]
      · rw [if_neg hm, if_pos h]
  · by_cases h8 : data.length < 8
    · rw [if_pos h8]
    · rw [if_neg h8]
      by_cases hm : data.take 2 ≠ HEADER
      · rw [if_pos hm]
      · rw [if_neg hm]
        by_cases hc : ¬ (256 * data.getD 2 0 + data.getD 3 0 = 0x0101 ∨
            256 * data.getD 2 0 + data.getD 3 0 = 0x0102)
        · rw [if_pos hc]
        · rw [if_neg hc, if_pos h]

/-- Witness for C10 on a short buffer. -/
theorem c10_decoder_never_raises_witness :
    read_button_press true [0x7c] = (none, []) :=
  c10_decoder_never_raises [0x7c] true (Or.inl (by norm_num))

/-- Per-button input dictionary for `set_buttons`: the optional `state`,
`label` and `image` keys. -/
structure ButtonConfig where
  state : Option Nat := none
  label : Option String := none
  image : Option String := none
deriving DecidableEq, Repr

/-- The single `ViewParam[0]` record of a manifest entry, with its optional
`Text` and `Icon` fields. -/
structure ViewParam where
  text : Option String := none
  icon : Option String := none
deriving DecidableEq, Repr

/-- One manifest record: `State` plus the one-element `ViewParam` list. -/
structure ManifestEntry where
  state : Nat
  view : ViewParam
deriving DecidableEq, Repr

/-- `PurePath.name` for slash-separated paths: the final path component. -/
def basenameAux : List Char → List Char → List Char
  | [], acc => acc.reverse
  | c :: rest, acc =>
      if c = '/' then basenameAux rest [] else basenameAux rest (c :: acc)

/-- `Path(image_path).name` as used on line 224. -/
def basename (p : String) : String := ⟨basenameAux p.data []⟩

/-- The manifest key of line 207-209: `f"{col}_{row}"` with
`row = idx // 5` and `col = idx % 5`. -/
def manifestKey (idx : Nat) : String :=
  toString (idx % 5) ++ "_" ++ toString (idx / 5)

/-- The `button_data` record built for one button (lines 211-231).  `fs`
models the filesystem: the bytes of a path when the file exists.  The
`if config:` guard of line 216 is redundant (an empty dict has no
`label`/`image` key), so it does not appear separately. -/
def buildButtonData (config : ButtonConfig) (fs : String → Option (List Nat)) :
    ManifestEntry :=
  { state := config.state.getD 0,
    view :=
      { text := config.label,
        icon :=
          match config.image with
          | none => none
          | some p =>
              match fs p with
              | some _ => some ("icons/" ++ basename p)
              | none => none } }

/-- The `zf.writestr(f'icons/{icon_name}', ...)` calls one button performs
(lines 220-231): one archive entry when the icon file exists, none
otherwise. -/
def iconWrites (config : ButtonConfig) (fs : String → Option (List Nat)) :
    List (String × List Nat) :=
  match config.image with
  | none => []
  | some p =>
      match fs p with
      | some bytes => [("icons/" ++ basename p, bytes)]
      | none => []

/-- The name of the icon entry a button would contribute, when its file
exists. -/
def iconEntryName (config : ButtonConfig) (fs : String → Option (List Nat)) :
    Option String :=
  match config.image with
  | none => none
  | some p =>
      match fs p with
      | some _ => some ("icons/" ++ basename p)
      | none => none

/-- The manifest mapping `set_buttons` builds (lines 204-233), in button
iteration order. -/
def set_buttons_manifest (buttons : List (Nat × ButtonConfig))
    (fs : String → Option (List Nat)) : List (String × ManifestEntry) :=
  buttons.map (fun bc => (manifestKey bc.1, buildButtonData bc.2 fs))

/-- Named characters, used to keep JSON punctuation explicit. -/
def quoteChar : Char := Char.ofNat 34

def lbraceChar : Char := Char.ofNat 0x7b

def rbraceChar : Char := Char.ofNat 0x7d

def backslashChar : Char := Char.ofNat 92

def newlineChar : Char := Char.ofNat 10

/-- Lowercase hexadecimal digit, as in CPython's `'\u%04x'` escapes. -/
def hexDigit (n : Nat) : Char :=
  if n < 10 then Char.ofNat (48 + n) else Char.ofNat (87 + n)

def hex4 (n : Nat) : List Char :=
  [hexDigit (n / 4096 % 16), hexDigit (n / 256 % 16),
   hexDigit (n / 16 % 16), hexDigit (n % 16)]

/-- CPython `json` string escaping with `ensure_ascii=True`
(`py_encode_basestring_ascii`): backslash and quote get two-character
escapes, printable ASCII passes through, the common control characters
get short escapes, everything else becomes `\uXXXX` (surrogate pairs
above the BMP). -/
def escapeChar (c : Char) : List Char :=
  if c = backslashChar then [backslashChar, backslashChar]
  else if c = quoteChar then [backslashChar, quoteChar]
  else if 0x20 ≤ c.toNat ∧ c.toNat ≤ 0x7e then [c]
  else if c.toNat = 10 then [backslashChar, 'n']
  else if c.toNat = 9 then [backslashChar, 't']
  else if c.toNat = 13 then [backslashChar, 'r']
  else if c.toNat = 8 then [backslashChar, 'b']
  else if c.toNat = 12 then [backslashChar, 'f']
  else if c.toNat < 0x10000 then backslashChar :: 'u' :: hex4 c.toNat
  else
    backslashChar :: 'u' :: hex4 (0xd800 + (c.toNat - 0x10000) / 1024) ++
      (backslashChar :: 'u' :: hex4 (0xdc00 + (c.toNat - 0x10000) % 1024))

/-- A JSON string literal: quoted, escaped. -/
def quoteStr (s : String) : List Char :=
  quoteChar :: (s.data.flatMap escapeChar) ++ [quoteChar]

/-- Lexicographic comparison of strings by code point, as Python's `sorted`
compares `str` keys for `sort_keys=True`. -/
def charsLt : List Char → List Char → Bool
  | [], [] => false
  | [], _ :: _ => true
  | _ :: _, [] => false
  | a :: as, b :: bs =>
      if a.toNat < b.toNat then true
      else if b.toNat < a.toNat then false
      else charsLt as bs

def keyLt (a b : String) : Bool := charsLt a.data b.data

/-- Stable insertion into a key-sorted association list. -/
def insertSorted (kv : String × ManifestEntry) :
    List (String × ManifestEntry) → List (String × ManifestEntry)
  | [] => [kv]
  | kv2 :: rest =>
      if keyLt kv2.1 kv.1 then kv2 :: insertSorted kv rest
      else kv :: kv2 :: rest

/-- Stable sort by key: what `json.dumps(..., sort_keys=True)` applies to
each object's items. -/
def sortByKey : List (String × ManifestEntry) → List (String × ManifestEntry)
  | [] => []
  | kv :: rest => insertSorted kv (sortByKey rest)

/-- Newline plus indentation, CPython's `_newline_indent`. -/
def nlIndent (k : Nat) : List Char := newlineChar :: List.replicate k ' '

def joinSep (sep : List Char) : List (List Char) → List Char
  | [] => []
  | [x] => x
  | x :: xs => x ++ sep ++ joinSep sep xs

/-- CPython `json.dumps` container rendering for one nesting level, given
the already-rendered items: empty containers collapse, `indent=None`
joins with the item separator, `indent=w` opens a `w*(level+1)`-indented
line per item and closes on a `w*level`-indented line. -/
def serContainer (openC closeC : Char) (isep : List Char) (ind : Option Nat)
    (lvl : Nat) (items : List (List Char)) : List Char :=
  if items = [] then [openC, closeC]
  else
    match ind with
    | none => openC :: (joinSep isep items ++ [closeC])
    | some w =>
        openC :: (nlIndent (w * (lvl + 1)) ++
          joinSep (isep ++ nlIndent (w * (lvl + 1))) items ++
          (nlIndent (w * lvl) ++ [closeC]))

/-- The `ViewParam[0]` object, keys in sorted order (`"Icon" < "Text"`);
the source inserts `Text` first (line 218) and `Icon` second (line 227),
and `sort_keys=True` orders them at serialization time. -/
def serViewEntry (vp : ViewParam) (isep ksep : List Char) (ind : Option Nat)
    (lvl : Nat) : List Char :=
  serContainer lbraceChar rbraceChar isep ind lvl
    ((match vp.icon with
      | some i => [quoteStr "Icon" ++ ksep ++ quoteStr i]
      | none => []) ++
     (match vp.text with
      | some t => [quoteStr "Text" ++ ksep ++ quoteStr t]
      | none => []))

/-- One manifest entry as JSON, keys in sorted order
(`"State" < "ViewParam"`). -/
def serEntry (e : ManifestEntry) (isep ksep : List Char) (ind : Option Nat)
    (lvl : Nat) : List Char :=
  serContainer lbraceChar rbraceChar isep ind lvl
    [quoteStr "State" ++ ksep ++ (Nat.repr e.state).data,
     quoteStr "ViewParam" ++ ksep ++
       serContainer '[' ']' isep ind (lvl + 1)
         [serViewEntry e.view isep ksep ind (lvl + 2)]]

/-- `json.dumps(manifest, sort_keys=True, separators=(isep, ksep),
indent=ind)` for the manifest's fixed shape (a mapping of strings to
ManifestEntry records). -/
def serManifest (m : List (String × ManifestEntry)) (isep ksep : List Char)
    (ind : Option Nat) : List Char :=
  serContainer lbraceChar rbraceChar isep ind 0
    ((sortByKey m).map (fun kv => quoteStr kv.1 ++ ksep ++
      serEntry kv.2 isep ksep ind 1))

/-- The `manifest.json` text handed to `zf.writestr` on line 236:
`json.dumps(manifest, sort_keys=True, separators=(',', ':'), indent=2)`. -/
def manifestTransmitted (buttons : List (Nat × ButtonConfig))
    (fs : String → Option (List Nat)) : List Char :=
  serManifest (set_buttons_manifest buttons fs) [','] [':'] (some 2)

/-- Modelled from the spec: the compact (no-indent, compact-separator)
serialization the claim asserts is transmitted —
`json.dumps(manifest, sort_keys=True, separators=(',', ':'))` with no
`indent`. -/
def manifestCompactClaim (buttons : List (Nat × ButtonConfig))
    (fs : String → Option (List Nat)) : List Char :=
  serManifest (set_buttons_manifest buttons fs) [','] [':'] none

/-- The ordered `zf.writestr` calls of `set_buttons` (lines 203-243): icon
entries in button order, then `manifest.json` (UTF-8 of the transmitted
serialization; after `ensure_ascii` escaping every character is ASCII),
then the always-empty `dummy.txt` (`dummy_retries` is never incremented).
`zipfile` appends every call as its own archive entry, duplicates
included. -/
def set_buttons_archive (buttons : List (Nat × ButtonConfig))
    (fs : String → Option (List Nat)) : List (String × List Nat) :=
  (buttons.flatMap (fun bc => iconWrites bc.2 fs)) ++
    [("manifest.json", (manifestTransmitted buttons fs).map Char.toNat)] ++
    [("dummy.txt", [])]

section BundleLemmas

lemma insertSorted_length (kv : String × ManifestEntry) :
    ∀ l : List (String × ManifestEntry), (insertSorted kv l).length = l.length + 1 := by
  intro l
  induction l with
  | nil => rfl
  | cons kv2 rest ih =>
    unfold insertSorted
    by_cases h : keyLt kv2.1 kv.1
    · rw [if_pos h]
      simp [ih]
    · rw [if_neg h]
      simp

lemma sortByKey_length (l : List (String × ManifestEntry)) :
    (sortByKey l).length = l.length := by
  induction l with
  | nil => rfl
  | cons kv rest ih =>
    unfold sortByKey
    rw [insertSorted_length, ih]
    rfl

lemma countP_iconWrites (fs : String → Option (List Nat)) (nm : String) :
    ∀ buttons : List (Nat × ButtonConfig),
      (buttons.flatMap (fun bc => iconWrites bc.2 fs)).countP
          (fun e => e.1 == nm) =
        buttons.countP (fun bc => iconEntryName bc.2 fs == some nm) := by
  intro buttons
  induction buttons with
  | nil => rfl
  | cons bc rest ih =>
    rw [List.flatMap_cons, List.countP_append, List.countP_cons, ih]
    have : (iconWrites bc.2 fs).countP (fun e => e.1 == nm) =
        if iconEntryName bc.2 fs == some nm then 1 else 0 := by
      unfold iconWrites iconEntryName
      cases hi : bc.2.image with
      | none => simp
      | some p =>
        cases hf : fs p with
        | none => simp [hf]
        | some bytes => simp [hf, List.countP_cons]
    rw [this]
    exact Nat.add_comm _ _

end BundleLemmas

/-- C6: every button entry lands in the manifest under key
`"{col}_{row}"` (`col = idx % 5`, `row = idx / 5`) with `State` from the
config (0 when absent) and `Text` exactly the optional label; when the
icon path is present and the file exists, the bytes are stored under
`icons/<basename>` and `Icon` names that relative path; a missing icon
file leaves the entry in place with no `Icon` field and is not a
failure. -/
theorem c6_set_buttons_entries (buttons : List (Nat × ButtonConfig))
    (fs : String → Option (List Nat)) (idx : Nat) (config : ButtonConfig)
    (hmem : (idx, config) ∈ buttons) :
    (manifestKey idx, buildButtonData config fs) ∈
        set_buttons_manifest buttons fs ∧
    (buildButtonData config fs).state = config.state.getD 0 ∧
    (buildButtonData config fs).view.text = config.label ∧
    (∀ p bytes, config.image = some p → fs p = some bytes →
      (buildButtonData config fs).view.icon = some ("icons/" ++ basename p) ∧
      ("icons/" ++ basename p, bytes) ∈ set_buttons_archive buttons fs) ∧
    (∀ p, config.image = some p → fs p = none →
      (buildButtonData config fs).view.icon = none) ∧
    (config.image = none → (buildButtonData config fs).view.icon = none) := by
  refine ⟨?_, rfl, rfl, ?_, ?_, ?_⟩
  · exact List.mem_map.mpr ⟨(idx, config), hmem, rfl⟩
  · intro p bytes hp hb
    constructor
    · simp [buildButtonData, hp, hb]
    · unfold set_buttons_archive
      refine List.mem_append.mpr (Or.inl (List.mem_append.mpr (Or.inl ?_)))
      refine List.mem_flatMap.mpr ⟨(idx, config), hmem, ?_⟩
      simp [iconWrites, hp, hb]
  · intro p hp hnone
    simp [buildButtonData, hp, hnone]
  · intro hnone
    simp [buildButtonData, hnone]

/-- Witness for C6: button 7 with state 3, label "Hi" and an existing icon
at "a/icon.png" lands under manifest key "2_1" with its icon entry stored. -/
theorem c6_set_buttons_entries_witness :
    (manifestKey 7,
      buildButtonData
        { state := some 3, label := some "Hi", image := some "a/icon.png" }
        (fun p => if p = "a/icon.png" then some [80, 78] else none)) ∈
      set_buttons_manifest
        [(7, { state := some 3, label := some "Hi", image := some "a/icon.png" })]
        (fun p => if p = "a/icon.png" then some [80, 78] else none) ∧
    (buildButtonData
        { state := some 3, label := some "Hi", image := some "a/icon.png" }
        (fun p => if p = "a/icon.png" then some [80, 78] else none)).view.icon =
      some ("icons/" ++ basename "a/icon.png") ∧
    ("icons/" ++ basename "a/icon.png", [80, 78]) ∈ set_buttons_archive
      [(7, { state := some 3, label := some "Hi", image := some "a/icon.png" })]
      (fun p => if p = "a/icon.png" then some [80, 78] else none) := by
  have h := c6_set_buttons_entries
    [(7, { state := some 3, label := some "Hi", image := some "a/icon.png" })]
    (fun p => if p = "a/icon.png" then some [80, 78] else none)
    7 { state := some 3, label := some "Hi", image := some "a/icon.png" }
    (List.mem_singleton.mpr rfl)
  exact ⟨h.1, (h.2.2.2.1 "a/icon.png" [80, 78] rfl (by simp)).1,
    (h.2.2.2.1 "a/icon.png" [80, 78] rfl (by simp)).2⟩

/-- C7 counterexample: for a one-button mapping, the manifest bytes handed
to the chunk transmitter (built with `indent=2`, line 236) differ from the
compact no-indent serialization the claim asserts. -/
theorem c7_transmitted_not_compact :
    manifestTransmitted [(0, { state := some 3 })] (fun _ => none) ≠
      manifestCompactClaim [(0, { state := some 3 })] (fun _ => none) := by
  decide

/-- C7 amended: the transmitted `manifest.json` is key-sorted JSON with
compact separators but 2-space indentation — for every nonempty button
mapping the transmitted bytes contain a newline, so the indentation is
not confined to logging. -/
theorem c7_transmitted_manifest_indented (buttons : List (Nat × ButtonConfig))
    (fs : String → Option (List Nat)) (h : buttons ≠ []) :
    newlineChar ∈ manifestTransmitted buttons fs := by
  unfold manifestTransmitted serManifest
  have hne : (sortByKey (set_buttons_manifest buttons fs)).map
      (fun kv => quoteStr kv.1 ++ [':'] ++
        serEntry kv.2 [','] [':'] (some 2) 1) ≠ [] := by
    intro hnil
    have := congrArg List.length hnil
    rw [List.length_map, sortByKey_length] at this
    simp [set_buttons_manifest] at this
    exact h this
  unfold serContainer
  rw [if_neg hne]
  simp [nlIndent]

/-- Witness for the amended C7 on a concrete one-button mapping. -/
theorem c7_transmitted_manifest_indented_witness :
    newlineChar ∈ manifestTransmitted [(0, { state := some 3 })] (fun _ => none) :=
  c7_transmitted_manifest_indented [(0, { state := some 3 })] (fun _ => none)
    (by simp)

/-- C8 counterexample: two buttons whose icon files share the base name
`ic.png` produce two `icons/ic.png` archive entries, not one — `zipfile`
appends every `writestr`, nothing is deduplicated. -/
theorem c8_duplicate_icon_names :
    ((set_buttons_archive
        [(0, { image := some "a/ic.png" }), (1, { image := some "b/ic.png" })]
        (fun p => if p = "a/ic.png" then some [1] else
          if p = "b/ic.png" then some [2] else none)).countP
      (fun e => e.1 == "icons/ic.png")) = 2 := by
  decide

/-- C8 amended: the archive holds one `icons/<basename>` entry per button
whose referenced icon file exists, counted with multiplicity: for every
entry name, the number of archive entries with that name equals the number
of buttons contributing it, plus one for `manifest.json` and one for
`dummy.txt`.  Buttons sharing a base name therefore yield duplicate
same-named entries. -/
theorem c8_icon_entry_multiplicity (buttons : List (Nat × ButtonConfig))
    (fs : String → Option (List Nat)) (nm : String) :
    (set_buttons_archive buttons fs).countP (fun e => e.1 == nm) =
      buttons.countP (fun bc => iconEntryName bc.2 fs == some nm) +
      ((if ("manifest.json" : String) == nm then 1 else 0) +
       (if ("dummy.txt" : String) == nm then 1 else 0)) := by
  unfold set_buttons_archive
  rw [List.countP_append, List.countP_append, countP_iconWrites]
  have hm : List.countP (fun e => e.1 == nm)
      [(("manifest.json" : String), (manifestTransmitted buttons fs).map Char.toNat)] =
      if ("manifest.json" : String) == nm then 1 else 0 := by
    rw [List.countP_cons, List.countP_nil, Nat.zero_add]
  have hd : List.countP (fun e => e.1 == nm)
      [(("dummy.txt" : String), ([] : List Nat))] =
      if ("dummy.txt" : String) == nm then 1 else 0 := by
    rw [List.countP_cons, List.countP_nil, Nat.zero_add]
  rw [hm, hd, Nat.add_assoc]

end Ulanzi
